import Mathlib

/-!
Verification of the docudb document-store layer (src/src/docudb.hpp,
src/src/docudb.cpp) against its natural-language specification.

The development shallowly embeds the query-expression engine (binder,
binary predicates, logic gates), the document read/mutation protocol,
collection removal, index creation and the find statement builder.
The embedded SQLite engine behaviour (JSON path functions, DELETE/UPDATE
step semantics, transactions) is modelled from SQLite's documented
semantics, since the engine is an external collaborator of the repository.
-/

namespace Docudb

/-- Scalar values bindable into a statement, mirroring the db_value variant
(float, double, int32, int64, nullptr, string).  Floating-point payloads are
carried as raw bit patterns; no claim performs float arithmetic. -/
inductive DbValue where
  | f32 (bits : Nat)
  | f64 (bits : Nat)
  | i32 (n : Int)
  | i64 (n : Int)
  | null
  | str (s : String)
deriving DecidableEq, Repr

/-- Parameter binder: the query::binder wraps an unordered_map from the
placeholder index to the bound value; we model the map as an association
list looked up by key. -/
abbrev Binder : Type := List (Int × DbValue)

/-- Key lookup in the binder map. -/
def binderFind : Binder → Int → Option DbValue
  | [], _ => none
  | (j, v) :: rest, i => if j = i then some v else binderFind rest i

/-- Mirrors binder::add, which uses unordered_map::emplace: the entry is
inserted only when the key is not already present. -/
def binderAdd (b : Binder) (i : Int) (v : DbValue) : Binder :=
  match binderFind b i with
  | none => b ++ [(i, v)]
  | some _ => b

/-- Mirrors binder::merge, which uses unordered_map::merge: every entry of
the source map whose key is absent from the destination is moved over, and
entries with colliding keys are left behind (the destination keeps its own
entry). -/
def binderMerge (a b : Binder) : Binder :=
  a ++ b.filter (fun kv => (binderFind a kv.1).isNone)

/-- Empty binder (default-constructed query::binder). -/
def binderEmpty : Binder := []

/-- Expression tree of the query engine: query::binary_op leaves (with the
rendered column reference, the operator text, the placeholder index and the
node-local binder) and query::logic_gate nodes carrying the connective
text.  binary_op uses index -1 as the sentinel for the bind-nothing null
constructor. -/
inductive Expr where
  | binOp (var op : String) (index : Int) (bnd : Binder)
  | gate (a b : Expr) (conn : String)

/-- MAX_VAR_NUM bound from the header. -/
def maxVarNum : Nat := 250000

/-- Placeholder index assigned by the value-binding binary_op constructor:
the thread-local counter is pre-incremented and taken modulo MAX_VAR_NUM,
so a constructor running with counter value c computes 1 + ((c+1) mod
MAX_VAR_NUM).  Within the defined-behaviour range of the int counter the
value is non-negative. -/
def bindIndex (counter : Nat) : Int :=
  1 + (((counter + 1) % maxVarNum : Nat) : Int)

/-- Value-binding binary_op constructor: bumps the thread-local counter,
assigns the placeholder index and records the value in the node binder.
Returns the node together with the new counter value. -/
def mkBinaryOp (jsonQuery op : String) (value : DbValue) (counter : Nat) :
    Expr × Nat :=
  (Expr.binOp jsonQuery op (bindIndex counter) (binderAdd binderEmpty (bindIndex counter) value),
    counter + 1)

/-- Null-value binary_op constructor: index -1, empty binder, counter not
touched. -/
def mkBinaryOpNull (jsonQuery op : String) : Expr :=
  Expr.binOp jsonQuery op (-1) binderEmpty

/-- query::eq with a value. -/
def mkEq (name : String) (v : DbValue) (c : Nat) : Expr × Nat := mkBinaryOp name "=" v c

/-- query::eq with nullptr delegates to binary_op with operator IS. -/
def mkEqNull (name : String) : Expr := mkBinaryOpNull name "IS"

/-- query::neq with a value. -/
def mkNeq (name : String) (v : DbValue) (c : Nat) : Expr × Nat := mkBinaryOp name "!=" v c

/-- query::neq with nullptr delegates to binary_op with operator IS NOT. -/
def mkNeqNull (name : String) : Expr := mkBinaryOpNull name "IS NOT"

/-- logic_and wraps logic_gate with connective AND. -/
def mkAnd (a b : Expr) : Expr := Expr.gate a b "AND"

/-- logic_or wraps logic_gate with connective OR. -/
def mkOr (a b : Expr) : Expr := Expr.gate a b "OR"

/-- Root-sigil test from binary_op::to_query_string:
var_.size() > 0 && var_[0] == the dollar character. -/
def startsDollar (s : String) : Bool :=
  match s.toList with
  | '$' :: _ => true
  | _ => false

/-- Rendering of an expression to query text, mirroring
binary_op::to_query_string (with the null special case keyed on the
index -1 sentinel) and logic_gate::to_query_string, whose format string
is three placeholders separated by single spaces, with no surrounding
parentheses. -/
def exprQueryString : Expr → String
  | Expr.binOp var op idx _ =>
    if idx = -1 then
      if startsDollar var then
        "json_type(body, '" ++ var ++ "') IS NOT NULL AND json_extract(body, '" ++ var ++ "') " ++ op ++ " NULL"
      else
        "[" ++ var ++ "] " ++ op ++ " NULL"
    else
      if startsDollar var then
        "(json_extract(body, '" ++ var ++ "') " ++ op ++ " ?" ++ toString idx ++ ")"
      else
        "([" ++ var ++ "] " ++ op ++ " ?" ++ toString idx ++ ")"
  | Expr.gate a b conn =>
    exprQueryString a ++ " " ++ conn ++ " " ++ exprQueryString b

/-- Binder exposed by an expression: a binary_op returns its node binder;
a logic_gate starts from a default-constructed binder and merges the left
child then the right child into it. -/
def exprBinder : Expr → Binder
  | Expr.binOp _ _ _ b => b
  | Expr.gate a b _ =>
    binderMerge (binderMerge binderEmpty (exprBinder a)) (exprBinder b)

/-- Placeholder index stored in a node; only meaningful on binary_op
leaves (gates carry no index of their own). -/
def exprIndex : Expr → Int
  | Expr.binOp _ _ i _ => i
  | Expr.gate _ _ _ => 0

/-- String append is associative (data-level fact used to normalise the
rendered query texts). -/
theorem strAppendAssoc (a b c : String) : a ++ b ++ c = a ++ (b ++ c) := by
  apply String.ext
  simp [String.data_append]

/-- Merging into an empty binder keeps every entry of the source. -/
theorem binderMerge_empty (b : Binder) : binderMerge binderEmpty b = b := by
  unfold binderMerge binderEmpty
  simp [binderFind]


/-- Character membership in an appended string splits over the two parts. -/
theorem strAppendMem (c : Char) (a b : String) :
    c ∈ (a ++ b).toList ↔ c ∈ a.toList ∨ c ∈ b.toList := by
  simp [String.toList, String.data_append]

/-- C1: eq(p, nullptr) and neq(p, nullptr) contribute zero binder entries,
and render as the IS [NOT] NULL form — with the json_type existence guard
for JSON-rooted paths and the bracketed-column form otherwise — with no
parameter placeholder in the text. -/
theorem null_predicate_binds_nothing_and_renders_is_null (p : String)
    (hp : '?' ∉ p.toList) :
    exprBinder (mkEqNull p) = binderEmpty ∧
    exprBinder (mkNeqNull p) = binderEmpty ∧
    exprQueryString (mkEqNull p) =
      (if startsDollar p then
        "json_type(body, '" ++ p ++ "') IS NOT NULL AND json_extract(body, '" ++ p ++ "') IS NULL"
      else
        "[" ++ p ++ "] IS NULL") ∧
    exprQueryString (mkNeqNull p) =
      (if startsDollar p then
        "json_type(body, '" ++ p ++ "') IS NOT NULL AND json_extract(body, '" ++ p ++ "') IS NOT NULL"
      else
        "[" ++ p ++ "] IS NOT NULL") ∧
    '?' ∉ (exprQueryString (mkEqNull p)).toList ∧
    '?' ∉ (exprQueryString (mkNeqNull p)).toList := by
  refine ⟨rfl, rfl, ?_, ?_, ?_, ?_⟩
  · unfold mkEqNull mkBinaryOpNull exprQueryString
    cases hs : startsDollar p <;> simp [hs, strAppendAssoc]
  · unfold mkNeqNull mkBinaryOpNull exprQueryString
    cases hs : startsDollar p <;> simp [hs, strAppendAssoc]
  · unfold mkEqNull mkBinaryOpNull exprQueryString
    intro h
    cases hs : startsDollar p <;>
      simp only [hs, Bool.false_eq_true, reduceIte, strAppendMem, hp,
        or_false, false_or] at h <;>
      exact absurd h (by decide)
  · unfold mkNeqNull mkBinaryOpNull exprQueryString
    intro h
    cases hs : startsDollar p <;>
      simp only [hs, Bool.false_eq_true, reduceIte, strAppendMem, hp,
        or_false, false_or] at h <;>
      exact absurd h (by decide)

/-- Witness for C1 at the concrete JSON path $.a. -/
theorem null_predicate_witness :
    exprQueryString (mkEqNull "$.a") =
      "json_type(body, '$.a') IS NOT NULL AND json_extract(body, '$.a') IS NULL" := by
  have h := null_predicate_binds_nothing_and_renders_is_null "$.a" (by decide)
  simpa using h.2.2.1

/-- C3 counterexample: the AND gate over two concrete already-constructed
predicates does not render as the parenthesized form
(<left-text> AND <right-text>); the gate emits no enclosing parentheses. -/
theorem gate_text_not_parenthesized_cex :
    exprQueryString
        (mkAnd (mkBinaryOp "$.a" "=" (DbValue.i32 1) 0).1
               (mkBinaryOp "$.b" "=" (DbValue.i32 2) 1).1) ≠
      "(" ++
        exprQueryString (mkBinaryOp "$.a" "=" (DbValue.i32 1) 0).1 ++
        " AND " ++
        exprQueryString (mkBinaryOp "$.b" "=" (DbValue.i32 2) 1).1 ++
      ")" := by
  decide

/-- C3 amended: the gate renders as <left-text> <connective> <right-text>
without enclosing parentheses, and its binder is the left-priority union
of the children's binders (the plain union whenever their indices are
disjoint). -/
theorem gate_text_and_binder (a b : Expr) :
    exprQueryString (mkAnd a b) = exprQueryString a ++ " AND " ++ exprQueryString b ∧
    exprQueryString (mkOr a b) = exprQueryString a ++ " OR " ++ exprQueryString b ∧
    exprBinder (mkAnd a b) = binderMerge (exprBinder a) (exprBinder b) ∧
    exprBinder (mkOr a b) = binderMerge (exprBinder a) (exprBinder b) := by
  refine ⟨?_, ?_, ?_, ?_⟩ <;>
    simp [mkAnd, mkOr, exprQueryString, exprBinder, binderMerge_empty, strAppendAssoc]

/-- C9: the placeholder index assigned by a value-binding binary_op built
at thread-local counter value c is 1 + ((c+1) mod MAX_VAR_NUM), so it lies
in [1, 250000], and within any window of at most 250000 consecutively
constructed value-binding predicates on one thread the assigned indices
are pairwise distinct.  The counter is thread-local, so no arbitration
happens across threads. -/
theorem bind_index_in_range_and_distinct (var op : String) (v : DbValue)
    (c k₁ k₂ : Nat) (h₁ : k₁ < maxVarNum) (h₂ : k₂ < maxVarNum)
    (hne : k₁ ≠ k₂) :
    (1 ≤ exprIndex (mkBinaryOp var op v c).1 ∧
      exprIndex (mkBinaryOp var op v c).1 ≤ 250000) ∧
    exprIndex (mkBinaryOp var op v (c + k₁)).1 ≠
      exprIndex (mkBinaryOp var op v (c + k₂)).1 := by
  simp only [mkBinaryOp, exprIndex, bindIndex, maxVarNum] at *
  omega

/-- Witness for C9 at counter 0 and offsets 0, 1. -/
theorem bind_index_witness :
    exprIndex (mkBinaryOp "$.a" "=" (DbValue.i32 1) 0).1 = 2 ∧
    exprIndex (mkBinaryOp "$.a" "=" (DbValue.i32 1) (0 + 0)).1 ≠
      exprIndex (mkBinaryOp "$.a" "=" (DbValue.i32 1) (0 + 1)).1 := by
  exact ⟨by decide,
    (bind_index_in_range_and_distinct "$.a" "=" (DbValue.i32 1) 0 0 1
      (by decide) (by decide) (by decide)).2⟩

/-- Lookup in an appended binder prefers the left part when it holds the
key. -/
theorem binderFind_append_left (xs ys : Binder) (i : Int) (v : DbValue)
    (h : binderFind xs i = some v) : binderFind (xs ++ ys) i = some v := by
  induction xs with
  | nil => simp [binderFind] at h
  | cons kv rest ih =>
    obtain ⟨j, w⟩ := kv
    rw [List.cons_append]
    unfold binderFind at h ⊢
    by_cases hk : j = i
    · simpa [hk] using h
    · simp only [hk, if_false] at h ⊢
      exact ih h

/-- C10: when both children of a logic gate bind the same placeholder
index, the merged binder of the gate keeps the left child's entry for that
index, and every entry it holds at that index comes from the left child —
the right child's colliding entry is dropped without any error. -/
theorem gate_merge_keeps_left_entry (a b : Expr) (conn : String) (i : Int)
    (v₁ v₂ : DbValue)
    (ha : binderFind (exprBinder a) i = some v₁)
    (hb : binderFind (exprBinder b) i = some v₂) :
    binderFind (exprBinder (Expr.gate a b conn)) i = some v₁ ∧
    ∀ v, (i, v) ∈ exprBinder (Expr.gate a b conn) → (i, v) ∈ exprBinder a := by
  constructor
  · show binderFind (binderMerge (binderMerge binderEmpty (exprBinder a)) (exprBinder b)) i = some v₁
    rw [binderMerge_empty]
    unfold binderMerge
    exact binderFind_append_left _ _ _ _ ha
  · intro v hv
    show (i, v) ∈ exprBinder a
    rw [show exprBinder (Expr.gate a b conn) =
          binderMerge (binderMerge binderEmpty (exprBinder a)) (exprBinder b) from rfl,
      binderMerge_empty] at hv
    unfold binderMerge at hv
    rcases List.mem_append.mp hv with hl | hr
    · exact hl
    · have hpred := (List.mem_filter.mp hr).2
      simp [ha] at hpred

/-- Witness for C10: two predicates constructed at the same counter value
collide on index 2; the gate keeps the left value. -/
theorem gate_merge_witness :
    binderFind
      (exprBinder
        (Expr.gate (mkBinaryOp "$.a" "=" (DbValue.i32 1) 0).1
                   (mkBinaryOp "$.b" "=" (DbValue.i32 2) 0).1 "AND")) 2 =
      some (DbValue.i32 1) := by
  exact (gate_merge_keeps_left_entry
    (mkBinaryOp "$.a" "=" (DbValue.i32 1) 0).1
    (mkBinaryOp "$.b" "=" (DbValue.i32 2) 0).1 "AND" 2
    (DbValue.i32 1) (DbValue.i32 2) (by decide) (by decide)).1


/-- JSON values as stored in a document body.  Numeric JSON values are
modelled as integers; floating-point bodies are not needed by any claim. -/
inductive Json where
  | null
  | bool (b : Bool)
  | jint (n : Int)
  | jstr (s : String)
  | jarr (xs : List Json)
  | jobj (kvs : List (String × Json))

/-- One step of a parsed SQLite JSON path: an object key or an array
index.  Path-string parsing itself belongs to the collaborator engine; the
embedding works on the parsed form. -/
inductive PathStep where
  | key (k : String)
  | idx (n : Nat)

/-- First value under a key in a JSON object. -/
def objLookup : List (String × Json) → String → Option Json
  | [], _ => none
  | (k, v) :: rest, key => if k = key then some v else objLookup rest key

/-- Resolution of a parsed JSON path against a value, as the engine's
json_extract / json_type do: none when the path does not exist. -/
def jsonLookup : Json → List PathStep → Option Json
  | j, [] => some j
  | Json.jobj kvs, PathStep.key k :: rest =>
    match objLookup kvs k with
    | some v => jsonLookup v rest
    | none => none
  | Json.jarr xs, PathStep.idx n :: rest =>
    match xs.get? n with
    | some v => jsonLookup v rest
    | none => none
  | _, _ => none

/-- Value of the generated docid column of a row: json_extract(body,
'$.docid'), for the string-valued docids the library stores. -/
def extractedDocid (b : Json) : Option String :=
  match jsonLookup b [PathStep.key "docid"] with
  | some (Json.jstr s) => some s
  | _ => none

/-- A collection's rows; the docid column is generated from the body, so a
row is just its body. -/
abbrev Store : Type := List Json

/-- Client-side document state: the id, the cached body and the
invalid_body flag of db_document. -/
structure DbDoc where
  docId : String
  bodyData : Json
  invalidBody : Bool

/-- Row selected by WHERE docid=? -/
def storeFind (st : Store) (id : String) : Option Json :=
  st.find? (fun b => extractedDocid b == some id)

/-- Error kinds raised by the embedded operations. -/
inductive DbErr where
  | documentNotFound
  | documentOrFieldNotFound
  | documentOrArrayNotFound
  | fieldIsNull
  | constraintViolation
  | alterTableFailed
  | createIndexFailed
  | commitFailed
  | duplicateColumn
deriving DecidableEq, Repr

/-- JSON node kinds of the public json_type enum (docudb.hpp). -/
inductive JsonType where
  | null
  | integer
  | real
  | string
  | object
  | array
  | boolean_true
  | boolean_false
  | not_found
deriving DecidableEq, Repr

/-- Type name the engine's json_type SQL function reports for a value. -/
def jsonTypeName : Json → String
  | Json.null => "null"
  | Json.bool true => "true"
  | Json.bool false => "false"
  | Json.jint _ => "integer"
  | Json.jstr _ => "text"
  | Json.jarr _ => "array"
  | Json.jobj _ => "object"

/-- Mapping of the reported type name onto the json_type enum, mirroring
the if/else chain of db_document::get_type; the result variable starts as
not_found and an unrecognised name leaves it there. -/
def typeNameToJsonType (s : String) : JsonType :=
  if s = "null" then JsonType.null
  else if s = "integer" then JsonType.integer
  else if s = "real" then JsonType.real
  else if s = "text" then JsonType.string
  else if s = "object" then JsonType.object
  else if s = "array" then JsonType.array
  else if s = "true" then JsonType.boolean_true
  else if s = "false" then JsonType.boolean_false
  else JsonType.not_found

/-- db_document::get_type: one statement selecting json_type(body, ?1)
for the row with the document's id.  No row (unknown id) leaves the
initial not_found; a SQL NULL result (missing path) maps to not_found via
the is_result_null check; otherwise the reported name is decoded.  The
read never consults the client-side cached body. -/
def getType (st : Store) (d : DbDoc) (p : List PathStep) : JsonType :=
  match storeFind st d.docId with
  | none => JsonType.not_found
  | some body =>
    match jsonLookup body p with
    | none => JsonType.not_found
    | some v => typeNameToJsonType (jsonTypeName v)

/-- SQL result cell produced by json_extract: NULL for an explicit JSON
null, an integer for integers and booleans, text for strings, and a
JSON-serialised text for arrays and objects (kept unserialised here; its
text always starts with a bracket or brace). -/
inductive SqlVal where
  | vnull
  | vint (n : Int)
  | vtext (s : String)
  | vjson (j : Json)

/-- Result of json_extract on a resolved value. -/
def jsonExtractVal : Json → SqlVal
  | Json.null => SqlVal.vnull
  | Json.bool b => SqlVal.vint (if b then 1 else 0)
  | Json.jint n => SqlVal.vint n
  | Json.jstr s => SqlVal.vtext s
  | Json.jarr xs => SqlVal.vjson (Json.jarr xs)
  | Json.jobj kvs => SqlVal.vjson (Json.jobj kvs)

/-- Leading optional-sign digit-prefix integer value of a string, as
sqlite3_column_int64 converts text. -/
def digitsVal : List Char → Int → Int
  | [], acc => acc
  | c :: cs, acc =>
    if c.isDigit then digitsVal cs (acc * 10 + (c.toNat - '0'.toNat : Nat)) else acc

/-- sqlite3_column_int64 on a result cell: NULL converts to 0, text to its
numeric prefix, serialised JSON text (leading bracket or brace) to 0. -/
def columnInt64 : SqlVal → Int
  | SqlVal.vnull => 0
  | SqlVal.vint n => n
  | SqlVal.vtext s =>
    match s.toList with
    | '-' :: cs => - digitsVal cs 0
    | cs => digitsVal cs 0
  | SqlVal.vjson _ => 0

/-- get_value_impl / db_document::get_number: one statement with
WHERE docid=?2 AND json_type(body, ?1) IS NOT NULL, so a missing document
and a missing path both yield no row and raise the same error; an explicit
JSON null satisfies the json_type guard and extracts as SQL NULL, which
column_int64 converts to 0.  The cached body is never consulted. -/
def getNumber (st : Store) (d : DbDoc) (p : List PathStep) : Except DbErr Int :=
  match storeFind st d.docId with
  | none => Except.error DbErr.documentOrFieldNotFound
  | some body =>
    match jsonLookup body p with
    | none => Except.error DbErr.documentOrFieldNotFound
    | some v => Except.ok (columnInt64 (jsonExtractVal v))


mutual
/-- JSON text the engine produces when an array or object cell is read as
text (json_extract of a composite returns its serialisation). -/
def jsonText : Json → String
  | Json.null => "null"
  | Json.bool true => "true"
  | Json.bool false => "false"
  | Json.jint n => toString n
  | Json.jstr s => "\"" ++ s ++ "\""
  | Json.jarr xs => "[" ++ jsonTextList xs ++ "]"
  | Json.jobj kvs => "\x7b" ++ jsonTextObj kvs ++ "\x7d"
/-- Comma-joined serialisation of array elements. -/
def jsonTextList : List Json → String
  | [] => ""
  | [x] => jsonText x
  | x :: y :: rest => jsonText x ++ "," ++ jsonTextList (y :: rest)
/-- Comma-joined serialisation of object members. -/
def jsonTextObj : List (String × Json) → String
  | [] => ""
  | [(k, v)] => "\"" ++ k ++ "\":" ++ jsonText v
  | (k, v) :: y :: rest => "\"" ++ k ++ "\":" ++ jsonText v ++ "," ++ jsonTextObj (y :: rest)
end

/-- statement::get with the string instantiation: sqlite3_column_text of a
NULL cell is a null pointer and the accessor throws "Field is null";
integers convert to their digit text and composites to their JSON text. -/
def columnText : SqlVal → Except DbErr String
  | SqlVal.vnull => Except.error DbErr.fieldIsNull
  | SqlVal.vint n => Except.ok (toString n)
  | SqlVal.vtext s => Except.ok s
  | SqlVal.vjson j => Except.ok (jsonText j)

/-- get_value_impl / db_document::get_string: the same single statement as
get_number; an explicit JSON null extracts as SQL NULL, on which the
string accessor throws its field-is-null error. -/
def getString (st : Store) (d : DbDoc) (p : List PathStep) :
    Except DbErr String :=
  match storeFind st d.docId with
  | none => Except.error DbErr.documentOrFieldNotFound
  | some body =>
    match jsonLookup body p with
    | none => Except.error DbErr.documentOrFieldNotFound
    | some v => columnText (jsonExtractVal v)

/-- sqlite3_column_double on a result cell, with doubles modelled as
rationals: NULL converts to 0, integers exactly; the fractional part of a
text conversion is beyond what any claim observes, so text converts
through its integer prefix. -/
def columnDouble : SqlVal → Rat
  | SqlVal.vnull => 0
  | SqlVal.vint n => (n : Rat)
  | SqlVal.vtext s => ((columnInt64 (SqlVal.vtext s) : Int) : Rat)
  | SqlVal.vjson _ => 0

/-- get_value_impl / db_document::get_real: the same statement again with
the double accessor, so an explicit null converts to 0. -/
def getReal (st : Store) (d : DbDoc) (p : List PathStep) :
    Except DbErr Rat :=
  match storeFind st d.docId with
  | none => Except.error DbErr.documentOrFieldNotFound
  | some body =>
    match jsonLookup body p with
    | none => Except.error DbErr.documentOrFieldNotFound
    | some v => Except.ok (columnDouble (jsonExtractVal v))

/-- db_document::get_array_length: the statement filters on
WHERE docid=?2 AND json_type(body, ?1) = 'array', so a missing document, a
missing path, an explicit null and any non-array value all leave no row
and raise the same "Document or array not found" error. -/
def getArrayLength (st : Store) (d : DbDoc) (p : List PathStep) :
    Except DbErr Nat :=
  match storeFind st d.docId with
  | none => Except.error DbErr.documentOrArrayNotFound
  | some body =>
    match jsonLookup body p with
    | some (Json.jarr xs) => Except.ok xs.length
    | _ => Except.error DbErr.documentOrArrayNotFound

/-- Key column of json_each over the value a path resolves to: object
member names, array indices as integers rendered to text by the string
accessor, and for any scalar (an explicit null included) a single row
whose key is SQL NULL. -/
def jsonEachKeys : Json → List (Option String)
  | Json.jobj kvs => kvs.map (fun kv => some kv.1)
  | Json.jarr xs => (List.range xs.length).map (fun i => some (toString i))
  | _ => [none]

/-- Streaming loop of get_object_keys: each row's key read through the
string accessor, which throws on a NULL key. -/
def collectKeys : List (Option String) → Except DbErr (List String)
  | [] => Except.ok []
  | none :: _ => Except.error DbErr.fieldIsNull
  | some k :: rest =>
    match collectKeys rest with
    | Except.ok ks => Except.ok (k :: ks)
    | Except.error e => Except.error e

/-- db_document::get_object_keys: SELECT DISTINCT json_each.key over the
row WHERE docid=?2.  A missing document or a missing path streams no rows
(the empty list); a path resolving to a scalar — an explicit null
included — streams one NULL key, on which the string accessor throws. -/
def getObjectKeys (st : Store) (d : DbDoc) (p : List PathStep) :
    Except DbErr (List String) :=
  match storeFind st d.docId with
  | none => Except.ok []
  | some body =>
    match jsonLookup body p with
    | none => Except.ok []
    | some v => collectKeys ((jsonEachKeys v).dedup)

/-- get_value_stmt_impl, the statement behind the typed multi-field tuple
read: SELECT json_extract(body, ?2), ... WHERE docid=?1 with no json_type
guard.  A missing id leaves no row and throws "Document not found" (a
different error from the single-value reads); otherwise each requested
path extracts to a cell, a missing path giving SQL NULL exactly like an
explicit null. -/
def tupleCells (st : Store) (d : DbDoc) (ps : List (List PathStep)) :
    Except DbErr (List SqlVal) :=
  match storeFind st d.docId with
  | none => Except.error DbErr.documentNotFound
  | some body =>
    Except.ok (ps.map (fun p =>
      match jsonLookup body p with
      | none => SqlVal.vnull
      | some v => jsonExtractVal v))

/-- C2 counterexample: over a store holding one document d2 whose body
lacks the path $.x, get_type reports the same not_found outcome for the
non-existent document id "missing" as for the existing document d2 with
the missing path, and get_number raises the identical error for both — so
the three states are not mutually distinguishable as claimed. -/
theorem read_states_collapse_cex :
    getType [Json.jobj [("docid", Json.jstr "d2"), ("y", Json.jint 1)]]
        ⟨"missing", Json.null, true⟩ [PathStep.key "x"] =
      getType [Json.jobj [("docid", Json.jstr "d2"), ("y", Json.jint 1)]]
        ⟨"d2", Json.null, true⟩ [PathStep.key "x"] ∧
    getType [Json.jobj [("docid", Json.jstr "d2"), ("y", Json.jint 1)]]
        ⟨"missing", Json.null, true⟩ [PathStep.key "x"] = JsonType.not_found ∧
    getNumber [Json.jobj [("docid", Json.jstr "d2"), ("y", Json.jint 1)]]
        ⟨"missing", Json.null, true⟩ [PathStep.key "x"] =
      getNumber [Json.jobj [("docid", Json.jstr "d2"), ("y", Json.jint 1)]]
        ⟨"d2", Json.null, true⟩ [PathStep.key "x"] :=
  ⟨rfl, rfl, rfl⟩

/-- C2 amended: every field-level read is a function of the store and the
document id only (never of the client-side cached body), but the three
states are not uniformly distinguished.  The single-value reads
get_string, get_number and get_real raise one identical not-found error
for a missing document and for a missing path, and distinguish an
explicit null from both — get_number and get_real convert the extracted
SQL NULL to zero while get_string fails with the distinct field-is-null
error.  get_type returns the null kind for an explicit null and the
not-found kind both for a missing path and for a missing document.
get_array_length fails with one identical error for a missing document, a
missing path and an explicit null alike.  The typed tuple read fails with
a document-not-found error (distinct from the single-value reads' error)
for a missing id but produces identical SQL NULL cells for a missing path
and an explicit null, on which the string accessor fails field-is-null
and the integer accessor yields 0.  get_object_keys streams an empty key
list both for a missing document and for a missing path, and fails with
the field-is-null error at an explicit null. -/
theorem field_reads_states (st : Store) (idA idM : String) (c₁ c₂ : Json)
    (f₁ f₂ : Bool) (p pn : List PathStep) (ps : List (List PathStep))
    (body : Json)
    (hdoc : storeFind st idA = some body)
    (hmiss : storeFind st idM = none) :
    (getType st ⟨idA, c₁, f₁⟩ p = getType st ⟨idA, c₂, f₂⟩ p ∧
     getNumber st ⟨idA, c₁, f₁⟩ p = getNumber st ⟨idA, c₂, f₂⟩ p ∧
     getString st ⟨idA, c₁, f₁⟩ p = getString st ⟨idA, c₂, f₂⟩ p ∧
     getReal st ⟨idA, c₁, f₁⟩ p = getReal st ⟨idA, c₂, f₂⟩ p ∧
     getArrayLength st ⟨idA, c₁, f₁⟩ p = getArrayLength st ⟨idA, c₂, f₂⟩ p ∧
     getObjectKeys st ⟨idA, c₁, f₁⟩ p = getObjectKeys st ⟨idA, c₂, f₂⟩ p ∧
     tupleCells st ⟨idA, c₁, f₁⟩ ps = tupleCells st ⟨idA, c₂, f₂⟩ ps) ∧
    (getString st ⟨idM, c₁, f₁⟩ p = Except.error DbErr.documentOrFieldNotFound ∧
     getNumber st ⟨idM, c₁, f₁⟩ p = Except.error DbErr.documentOrFieldNotFound ∧
     getReal st ⟨idM, c₁, f₁⟩ p = Except.error DbErr.documentOrFieldNotFound) ∧
    (jsonLookup body p = none →
      getString st ⟨idA, c₁, f₁⟩ p = Except.error DbErr.documentOrFieldNotFound ∧
      getNumber st ⟨idA, c₁, f₁⟩ p = Except.error DbErr.documentOrFieldNotFound ∧
      getReal st ⟨idA, c₁, f₁⟩ p = Except.error DbErr.documentOrFieldNotFound) ∧
    (jsonLookup body p = some Json.null →
      getString st ⟨idA, c₁, f₁⟩ p = Except.error DbErr.fieldIsNull ∧
      getNumber st ⟨idA, c₁, f₁⟩ p = Except.ok 0 ∧
      getReal st ⟨idA, c₁, f₁⟩ p = Except.ok 0) ∧
    ((jsonLookup body p = some Json.null →
       getType st ⟨idA, c₁, f₁⟩ p = JsonType.null) ∧
     (jsonLookup body p = none →
       getType st ⟨idA, c₁, f₁⟩ p = JsonType.not_found) ∧
     getType st ⟨idM, c₁, f₁⟩ p = JsonType.not_found) ∧
    (getArrayLength st ⟨idM, c₁, f₁⟩ p = Except.error DbErr.documentOrArrayNotFound ∧
     (jsonLookup body p = none →
       getArrayLength st ⟨idA, c₁, f₁⟩ p = Except.error DbErr.documentOrArrayNotFound) ∧
     (jsonLookup body p = some Json.null →
       getArrayLength st ⟨idA, c₁, f₁⟩ p = Except.error DbErr.documentOrArrayNotFound)) ∧
    (tupleCells st ⟨idM, c₁, f₁⟩ ps = Except.error DbErr.documentNotFound ∧
     DbErr.documentNotFound ≠ DbErr.documentOrFieldNotFound ∧
     (jsonLookup body p = none → jsonLookup body pn = some Json.null →
       tupleCells st ⟨idA, c₁, f₁⟩ [p] = tupleCells st ⟨idA, c₁, f₁⟩ [pn] ∧
       tupleCells st ⟨idA, c₁, f₁⟩ [p] = Except.ok [SqlVal.vnull]) ∧
     columnText SqlVal.vnull = Except.error DbErr.fieldIsNull ∧
     columnInt64 SqlVal.vnull = 0) ∧
    (getObjectKeys st ⟨idM, c₁, f₁⟩ p = Except.ok [] ∧
     (jsonLookup body p = none →
       getObjectKeys st ⟨idA, c₁, f₁⟩ p = Except.ok []) ∧
     (jsonLookup body p = some Json.null →
       getObjectKeys st ⟨idA, c₁, f₁⟩ p = Except.error DbErr.fieldIsNull)) := by
  refine ⟨⟨rfl, rfl, rfl, rfl, rfl, rfl, rfl⟩, ?_, ?_, ?_, ?_, ?_, ?_, ?_⟩
  · exact ⟨by simp [getString, hmiss], by simp [getNumber, hmiss],
      by simp [getReal, hmiss]⟩
  · intro h
    exact ⟨by simp [getString, hdoc, h], by simp [getNumber, hdoc, h],
      by simp [getReal, hdoc, h]⟩
  · intro h
    exact ⟨by simp [getString, hdoc, h, jsonExtractVal, columnText],
      by simp [getNumber, hdoc, h, jsonExtractVal, columnInt64],
      by simp [getReal, hdoc, h, jsonExtractVal, columnDouble]⟩
  · refine ⟨fun h => ?_, fun h => ?_, by simp [getType, hmiss]⟩
    · simp [getType, hdoc, h, jsonTypeName, typeNameToJsonType]
    · simp [getType, hdoc, h]
  · refine ⟨by simp [getArrayLength, hmiss], fun h => ?_, fun h => ?_⟩
    · simp [getArrayLength, hdoc, h]
    · simp [getArrayLength, hdoc, h]
  · refine ⟨by simp [tupleCells, hmiss], by decide, fun h hn => ?_,
      rfl, rfl⟩
    have h1 : tupleCells st ⟨idA, c₁, f₁⟩ [p] = Except.ok [SqlVal.vnull] := by
      simp [tupleCells, hdoc, h]
    have h2 : tupleCells st ⟨idA, c₁, f₁⟩ [pn] = Except.ok [SqlVal.vnull] := by
      simp [tupleCells, hdoc, hn, jsonExtractVal]
    exact ⟨h1.trans h2.symm, h1⟩
  · refine ⟨by simp [getObjectKeys, hmiss], fun h => ?_, fun h => ?_⟩
    · simp [getObjectKeys, hdoc, h]
    · simp [getObjectKeys, hdoc, h, jsonEachKeys, collectKeys]

/-- Witness for the amended C2 over a store with one document d2 holding
an explicit null at $.z and nothing at $.x. -/
theorem field_reads_states_witness :
    getType [Json.jobj [("docid", Json.jstr "d2"), ("z", Json.null)]]
        ⟨"d2", Json.null, true⟩ [PathStep.key "z"] = JsonType.null ∧
    getNumber [Json.jobj [("docid", Json.jstr "d2"), ("z", Json.null)]]
        ⟨"d2", Json.null, true⟩ [PathStep.key "z"] = Except.ok 0 ∧
    getString [Json.jobj [("docid", Json.jstr "d2"), ("z", Json.null)]]
        ⟨"d2", Json.null, true⟩ [PathStep.key "z"] =
      Except.error DbErr.fieldIsNull ∧
    getArrayLength [Json.jobj [("docid", Json.jstr "d2"), ("z", Json.null)]]
        ⟨"d2", Json.null, true⟩ [PathStep.key "z"] =
      Except.error DbErr.documentOrArrayNotFound ∧
    getObjectKeys [Json.jobj [("docid", Json.jstr "d2"), ("z", Json.null)]]
        ⟨"d2", Json.null, true⟩ [PathStep.key "x"] = Except.ok [] ∧
    tupleCells [Json.jobj [("docid", Json.jstr "d2"), ("z", Json.null)]]
        ⟨"missing", Json.null, true⟩ [[PathStep.key "z"]] =
      Except.error DbErr.documentNotFound := by
  have hz := field_reads_states
    [Json.jobj [("docid", Json.jstr "d2"), ("z", Json.null)]]
    "d2" "missing" Json.null Json.null true true
    [PathStep.key "z"] [PathStep.key "z"] [[PathStep.key "z"]]
    (Json.jobj [("docid", Json.jstr "d2"), ("z", Json.null)]) rfl rfl
  have hx := field_reads_states
    [Json.jobj [("docid", Json.jstr "d2"), ("z", Json.null)]]
    "d2" "missing" Json.null Json.null true true
    [PathStep.key "x"] [PathStep.key "z"] [[PathStep.key "z"]]
    (Json.jobj [("docid", Json.jstr "d2"), ("z", Json.null)]) rfl rfl
  exact ⟨(hz.2.2.2.2.1).1 rfl, (hz.2.2.2.1 rfl).2.1, (hz.2.2.2.1 rfl).1,
    (hz.2.2.2.2.2.1).2.2 rfl, (hx.2.2.2.2.2.2.2).2.1 rfl,
    (hz.2.2.2.2.2.2.1).1⟩

/-- db_collection::remove: DELETE FROM [t] WHERE docid=?1.  The engine's
step on a DELETE reports the done code whether or not any row matched, and
remove only raises when the code differs from done, so over a well-formed
store the operation always succeeds and simply keeps the non-matching
rows. -/
def removeDoc (st : Store) (id : String) : Except DbErr Store :=
  Except.ok (st.filter (fun b => !(extractedDocid b == some id)))

/-- db_document::erase and db_document_ref::erase both delegate to
db_collection::remove with the member document id. -/
def docErase (d : DbDoc) (st : Store) : Except DbErr Store :=
  removeDoc st d.docId

/-- C4 counterexample: erasing the id "ghost", which is absent from a
store holding only document d1, succeeds (returns the unchanged store)
instead of reporting a failure, both through remove and through erase. -/
theorem remove_missing_id_succeeds_cex :
    removeDoc [Json.jobj [("docid", Json.jstr "d1")]] "ghost" =
      Except.ok [Json.jobj [("docid", Json.jstr "d1")]] ∧
    docErase ⟨"ghost", Json.null, true⟩ [Json.jobj [("docid", Json.jstr "d1")]] =
      Except.ok [Json.jobj [("docid", Json.jstr "d1")]] :=
  ⟨rfl, rfl⟩

/-- C4 amended: removing (or erasing) a document id not present in the
collection is silently ignored — the call completes successfully and the
store is unchanged; no row-not-affected failure is raised, because the
affected-row count is never inspected. -/
theorem remove_missing_id_silent_noop (st : Store) (id : String)
    (c : Json) (f : Bool)
    (h : ∀ b ∈ st, extractedDocid b ≠ some id) :
    removeDoc st id = Except.ok st ∧
    docErase ⟨id, c, f⟩ st = Except.ok st := by
  have hfilter : st.filter (fun b => !(extractedDocid b == some id)) = st := by
    apply List.filter_eq_self.mpr
    intro b hb
    simp [h b hb]
  constructor
  · unfold removeDoc
    rw [hfilter]
  · unfold docErase removeDoc
    rw [hfilter]

/-- Witness for the amended C4 at a one-document store and the absent id
"ghost". -/
theorem remove_missing_id_silent_noop_witness :
    removeDoc [Json.jobj [("docid", Json.jstr "d1")]] "ghost" =
      Except.ok [Json.jobj [("docid", Json.jstr "d1")]] :=
  (remove_missing_id_silent_noop [Json.jobj [("docid", Json.jstr "d1")]]
    "ghost" Json.null true
    (by intro b hb; simp at hb; subst hb; simp [extractedDocid, jsonLookup, objLookup])).1


/-- Engine-side json_set at a top-level key: replaces the first existing
entry or appends the key at the end of the object. -/
def setKey : List (String × Json) → String → Json → List (String × Json)
  | [], k, v => [(k, v)]
  | (k₀, v₀) :: rest, k, v =>
    if k₀ = k then (k, v) :: rest else (k₀, v₀) :: setKey rest k v

/-- json_set(t, '$.docid', id): on an object body the docid entry is set;
on a non-object body the path cannot be created and the engine leaves the
value unchanged. -/
def jsonSetDocid (t : Json) (id : String) : Json :=
  match t with
  | Json.jobj kvs => Json.jobj (setKey kvs "docid" (Json.jstr id))
  | other => other

/-- db_document::body(text): one UPDATE setting
body = json_set(?1, '$.docid', ?2) on the row WHERE docid=?2, subject to
the table's NOT NULL constraint on the generated docid column; on success
the cached body becomes the raw replacement text and the invalid flag is
cleared. -/
def bodySet (st : Store) (d : DbDoc) (t : Json) : Except DbErr (Store × DbDoc) :=
  let st₂ := st.map (fun b =>
    if extractedDocid b == some d.docId then jsonSetDocid t d.docId else b)
  if st₂.all (fun b => (extractedDocid b).isSome) then
    Except.ok (st₂, { d with bodyData := t, invalidBody := false })
  else Except.error DbErr.constraintViolation

/-- One engine-side JSON mutation (json_set / json_insert / json_replace /
json_patch with fixed path and value arguments) applied through a
db_document set/insert/replace/patch call: the row is updated in place and
the client-side cache is marked invalid; the member document id is not
touched. -/
def docMutate (st : Store) (d : DbDoc) (f : Json → Json) : Store × DbDoc :=
  (st.map (fun b => if extractedDocid b == some d.docId then f b else b),
    { d with invalidBody := true })

/-- A document mutation of the protocol: an engine-side JSON update
(set/insert/replace/patch) or a wholesale body replacement. -/
inductive Mutation where
  | engine (f : Json → Json)
  | wholesale (t : Json)

/-- Application of one mutation to the (store, document) state; a failing
wholesale replacement raises before the document fields are assigned, so
the state is returned unchanged. -/
def applyMutation (p : Store × DbDoc) (m : Mutation) : Store × DbDoc :=
  match m with
  | Mutation.engine f => docMutate p.1 p.2 f
  | Mutation.wholesale t =>
    match bodySet p.1 p.2 t with
    | Except.ok q => q
    | Except.error _ => p

/-- db_document::id returns the member document id. -/
def docIdOf (d : DbDoc) : String := d.docId

/-- setKey places the given value under the given key. -/
theorem objLookup_setKey (kvs : List (String × Json)) (k : String) (v : Json) :
    objLookup (setKey kvs k v) k = some v := by
  induction kvs with
  | nil => simp [setKey, objLookup]
  | cons kv rest ih =>
    obtain ⟨k₀, v₀⟩ := kv
    by_cases hk : k₀ = k
    · simp [setKey, hk, objLookup]
    · simp [setKey, hk, objLookup, ih]

/-- Setting the docid key on an object body makes the generated docid
column extract exactly that id. -/
theorem extractedDocid_jsonSetDocid (kvs : List (String × Json)) (id : String) :
    extractedDocid (jsonSetDocid (Json.jobj kvs) id) = some id := by
  simp [jsonSetDocid, extractedDocid, jsonLookup, objLookup_setKey]

/-- Updating the matching row rewrites the row storeFind returns. -/
theorem storeFind_map_update (st : Store) (id : String) (new b₀ : Json)
    (hnew : extractedDocid new = some id)
    (hdoc : storeFind st id = some b₀) :
    storeFind
      (st.map (fun b => if extractedDocid b == some id then new else b)) id =
      some new := by
  induction st with
  | nil => simp [storeFind] at hdoc
  | cons b rest ih =>
    by_cases hb : extractedDocid b = some id
    · unfold storeFind
      rw [List.map_cons]
      rw [if_pos (by simp [hb])]
      apply List.find?_cons_of_pos
      simp [hnew]
    · unfold storeFind at hdoc ⊢
      rw [List.find?_cons_of_neg _ (by simp [hb])] at hdoc
      rw [List.map_cons, if_neg (by simp [hb])]
      rw [List.find?_cons_of_neg _ (by simp [hb])]
      exact ih hdoc

/-- A successful wholesale replacement keeps the member document id. -/
theorem bodySet_ok_docId (st : Store) (d : DbDoc) (t : Json) (q : Store × DbDoc)
    (h : bodySet st d t = Except.ok q) : q.2.docId = d.docId := by
  unfold bodySet at h
  dsimp only at h
  split at h
  · cases h
    rfl
  · exact Except.noConfusion h

/-- A mutation never changes the member document id. -/
theorem applyMutation_docId (p : Store × DbDoc) (m : Mutation) :
    (applyMutation p m).2.docId = p.2.docId := by
  cases m with
  | engine f => rfl
  | wholesale t =>
    unfold applyMutation
    dsimp only
    cases hq : bodySet p.1 p.2 t with
    | ok q => exact bodySet_ok_docId p.1 p.2 t q hq
    | error e => rfl

/-- No sequence of mutations changes the member document id. -/
theorem mutations_preserve_docId (ms : List Mutation) (p : Store × DbDoc) :
    (ms.foldl applyMutation p).2.docId = p.2.docId := by
  induction ms generalizing p with
  | nil => rfl
  | cons m rest ih =>
    rw [List.foldl_cons, ih (applyMutation p m), applyMutation_docId]


/-- C5: replacing the whole body with an object t succeeds on a
well-formed store holding the document, the persisted row becomes t with
its docid entry re-asserted to the document's id (also when t omits the
docid or carries a different one), the generated docid column again
extracts that id, and the id() accessor returns the same id after the
replacement and after any sequence of set/insert/replace/patch/body
mutations. -/
theorem body_replacement_reasserts_docid (st : Store) (d : DbDoc)
    (kvs : List (String × Json)) (ms : List Mutation) (b₀ : Json)
    (hwf : ∀ b ∈ st, (extractedDocid b).isSome = true)
    (hdoc : storeFind st d.docId = some b₀) :
    bodySet st d (Json.jobj kvs) =
      Except.ok
        (st.map (fun b =>
          if extractedDocid b == some d.docId then
            jsonSetDocid (Json.jobj kvs) d.docId
          else b),
         { d with bodyData := Json.jobj kvs, invalidBody := false }) ∧
    storeFind
        (st.map (fun b =>
          if extractedDocid b == some d.docId then
            jsonSetDocid (Json.jobj kvs) d.docId
          else b))
        d.docId = some (Json.jobj (setKey kvs "docid" (Json.jstr d.docId))) ∧
    extractedDocid (jsonSetDocid (Json.jobj kvs) d.docId) = some d.docId ∧
    docIdOf ((ms.foldl applyMutation (st, d)).2) = docIdOf d := by
  have hall :
      ((st.map (fun b =>
        if extractedDocid b == some d.docId then
          jsonSetDocid (Json.jobj kvs) d.docId
        else b)).all (fun b => (extractedDocid b).isSome)) = true := by
    rw [List.all_eq_true]
    intro b hbmem
    rcases List.mem_map.mp hbmem with ⟨a, ha, rfl⟩
    by_cases hmatch : extractedDocid a = some d.docId
    · rw [if_pos (by simp [hmatch])]
      simp [extractedDocid_jsonSetDocid]
    · rw [if_neg (by simp [hmatch])]
      exact hwf a ha
  refine ⟨?_, ?_, ?_, ?_⟩
  · unfold bodySet
    dsimp only
    rw [if_pos hall]
  · exact storeFind_map_update st d.docId _ b₀
      (extractedDocid_jsonSetDocid kvs d.docId) hdoc
  · exact extractedDocid_jsonSetDocid kvs d.docId
  · exact mutations_preserve_docId ms (st, d)

/-- Witness for C5: the single document i1, replaced by a body carrying a
different docid, is persisted with docid re-asserted to i1. -/
theorem body_replacement_witness :
    bodySet [Json.jobj [("docid", Json.jstr "i1"), ("a", Json.jint 1)]]
        ⟨"i1", Json.null, false⟩
        (Json.jobj [("docid", Json.jstr "zzz"), ("x", Json.jint 7)]) =
      Except.ok
        ([Json.jobj [("docid", Json.jstr "i1"), ("x", Json.jint 7)]],
         ⟨"i1", Json.jobj [("docid", Json.jstr "zzz"), ("x", Json.jint 7)], false⟩) := by
  have h := (body_replacement_reasserts_docid
    [Json.jobj [("docid", Json.jstr "i1"), ("a", Json.jint 1)]]
    ⟨"i1", Json.null, false⟩
    [("docid", Json.jstr "zzz"), ("x", Json.jint 7)] [] (Json.jobj [("docid", Json.jstr "i1"), ("a", Json.jint 1)])
    (by intro b hb; simp at hb; subst hb; rfl) rfl).1
  simpa using h


/-- Observable schema of a collection's table: its declared generated
columns and the names of its indexes. -/
structure Schema where
  columns : List String
  indexes : List String
deriving DecidableEq, Repr

/-- column_exists: counts the matching rows of pragma_table_xinfo. -/
def columnExists (s : Schema) (col : String) : Bool :=
  s.columns.contains col

/-- Engine response to ALTER TABLE ... ADD COLUMN: fails on a duplicate
column name, otherwise appends the column. -/
def alterAddColumn (s : Schema) (col : String) : Except DbErr Schema :=
  if s.columns.contains col then Except.error DbErr.duplicateColumn
  else Except.ok { s with columns := s.columns ++ [col] }

/-- Engine response to CREATE [UNIQUE] INDEX IF NOT EXISTS: a no-op when
an index of that name exists, otherwise the index is added. -/
def createIndexIfNotExists (s : Schema) (nm : String) : Schema :=
  if s.indexes.contains nm then s else { s with indexes := s.indexes ++ [nm] }

/-- Index name generated by the single-column overload:
Idx_<table>_<column>. -/
def idxName (table col : String) : String := "Idx_" ++ table ++ "_" ++ col

/-- db_collection::index(column_name, query, unique): adds the projected
column only when column_exists reports it absent, then issues CREATE
[UNIQUE] INDEX IF NOT EXISTS on it.  The unique flag only changes the
statement text, not which schema objects exist. -/
def indexSingle (s : Schema) (table col : String) (_unique : Bool) :
    Except DbErr Schema :=
  if columnExists s col then
    Except.ok (createIndexIfNotExists s (idxName table col))
  else
    match alterAddColumn s col with
    | Except.error e => Except.error e
    | Except.ok s₁ => Except.ok (createIndexIfNotExists s₁ (idxName table col))

/-- Column-adding loop of the multi-column overload, running inside the
transaction: each absent column is added by an ALTER TABLE that the engine
may refuse (hence the failure oracle); existing columns are skipped. -/
def addColumnsTx (s : Schema) (cols : List (String × String))
    (alterFails : String → Bool) : Except DbErr Schema :=
  match cols with
  | [] => Except.ok s
  | (col, _q) :: rest =>
    if s.columns.contains col then addColumnsTx s rest alterFails
    else if alterFails col then Except.error DbErr.alterTableFailed
    else addColumnsTx { s with columns := s.columns ++ [col] } rest alterFails

/-- db_collection::index(name, columns, unique), wrapped in the scoped
transaction: BEGIN, the ALTER loop, CREATE INDEX IF NOT EXISTS, COMMIT.
On any failure the exception propagates and the transaction destructor
rolls the schema back to its pre-call state; createFails and commitFails
model the engine refusing the respective statement.  Returns the raised
error (if any) together with the schema visible afterwards. -/
def indexMulti (s : Schema) (name : String)
    (cols : List (String × String)) (alterFails : String → Bool)
    (createFails commitFails : Bool) : Option DbErr × Schema :=
  match addColumnsTx s cols alterFails with
  | Except.error e => (some e, s)
  | Except.ok s₁ =>
    if createFails then (some DbErr.createIndexFailed, s)
    else
      let s₂ := createIndexIfNotExists s₁ name
      if commitFails then (some DbErr.commitFailed, s)
      else (none, s₂)

/-- The ALTER loop only ever appends columns. -/
theorem addColumnsTx_mono (cols : List (String × String))
    (s s₁ : Schema) (alterFails : String → Bool)
    (h : addColumnsTx s cols alterFails = Except.ok s₁) :
    ∀ c, s.columns.contains c = true → s₁.columns.contains c = true := by
  induction cols generalizing s with
  | nil =>
    intro c hc
    unfold addColumnsTx at h
    cases h
    exact hc
  | cons p rest ih =>
    intro c hc
    obtain ⟨col, q⟩ := p
    unfold addColumnsTx at h
    by_cases hcol : s.columns.contains col = true
    · rw [if_pos hcol] at h
      exact ih s h c hc
    · rw [if_neg hcol] at h
      by_cases hf : alterFails col = true
      · rw [if_pos hf] at h
        exact Except.noConfusion h
      · rw [if_neg hf] at h
        refine ih _ h c ?_
        rw [List.elem_iff] at hc ⊢
        simp [hc]

/-- A successful ALTER loop leaves every requested column present. -/
theorem addColumnsTx_all (cols : List (String × String))
    (s s₁ : Schema) (alterFails : String → Bool)
    (h : addColumnsTx s cols alterFails = Except.ok s₁) :
    ∀ p ∈ cols, s₁.columns.contains p.1 = true := by
  induction cols generalizing s with
  | nil => intro p hp; simp at hp
  | cons hd rest ih =>
    intro p hp
    obtain ⟨col, q⟩ := hd
    unfold addColumnsTx at h
    rcases List.mem_cons.mp hp with hph | hpr
    · subst hph
      by_cases hcol : s.columns.contains col = true
      · rw [if_pos hcol] at h
        exact addColumnsTx_mono rest s s₁ alterFails h col hcol
      · rw [if_neg hcol] at h
        by_cases hf : alterFails col = true
        · rw [if_pos hf] at h
          exact Except.noConfusion h
        · rw [if_neg hf] at h
          refine addColumnsTx_mono rest _ s₁ alterFails h col ?_
          rw [List.elem_iff]
          simp
    · by_cases hcol : s.columns.contains col = true
      · rw [if_pos hcol] at h
        exact ih s h p hpr
      · rw [if_neg hcol] at h
        by_cases hf : alterFails col = true
        · rw [if_pos hf] at h
          exact Except.noConfusion h
        · rw [if_neg hf] at h
          exact ih _ h p hpr


/-- CREATE INDEX IF NOT EXISTS never touches the column list. -/
theorem createIndexIfNotExists_columns (s : Schema) (nm : String) :
    (createIndexIfNotExists s nm).columns = s.columns := by
  unfold createIndexIfNotExists
  split <;> rfl

/-- After CREATE INDEX IF NOT EXISTS the index is present. -/
theorem createIndexIfNotExists_contains (s : Schema) (nm : String) :
    (createIndexIfNotExists s nm).indexes.contains nm = true := by
  unfold createIndexIfNotExists
  by_cases h : s.indexes.contains nm = true
  · rw [if_pos h]
    exact h
  · rw [if_neg h]
    dsimp only
    rw [List.elem_iff]
    simp

/-- CREATE INDEX IF NOT EXISTS is the identity when the index exists. -/
theorem createIndexIfNotExists_of_contains (s : Schema) (nm : String)
    (h : s.indexes.contains nm = true) : createIndexIfNotExists s nm = s := by
  unfold createIndexIfNotExists
  rw [if_pos h]

/-- CREATE INDEX IF NOT EXISTS leaves exactly one index of the name when
at most one existed. -/
theorem createIndexIfNotExists_count (s : Schema) (nm : String)
    (hcnt : s.indexes.count nm ≤ 1) :
    (createIndexIfNotExists s nm).indexes.count nm = 1 := by
  unfold createIndexIfNotExists
  by_cases h : s.indexes.contains nm = true
  · rw [if_pos h]
    have hmem : nm ∈ s.indexes := List.elem_iff.mp h
    have hpos : 0 < s.indexes.count nm := List.count_pos_iff.mpr hmem
    omega
  · rw [if_neg h]
    dsimp only
    have hmem : nm ∉ s.indexes := fun hm => h (List.elem_iff.mpr hm)
    rw [List.count_append, List.count_eq_zero.mpr hmem]
    simp

/-- C7: a successful index(column_name, path, unique) call is idempotent —
repeating it with identical arguments succeeds, skips adding the projected
column (it already exists), changes nothing, and exactly one index of the
generated name remains. -/
theorem index_single_idempotent (s s₁ : Schema) (table col : String)
    (u : Bool) (h : indexSingle s table col u = Except.ok s₁)
    (hcnt : s.indexes.count (idxName table col) ≤ 1) :
    indexSingle s₁ table col u = Except.ok s₁ ∧
    s₁.indexes.count (idxName table col) = 1 := by
  unfold indexSingle at h
  by_cases hcol : columnExists s col = true
  · rw [if_pos hcol] at h
    cases h
    constructor
    · unfold indexSingle
      rw [if_pos (by unfold columnExists at hcol ⊢
                     rw [createIndexIfNotExists_columns]
                     exact hcol)]
      rw [createIndexIfNotExists_of_contains _ _ (createIndexIfNotExists_contains s (idxName table col))]
    · exact createIndexIfNotExists_count s (idxName table col) hcnt
  · rw [if_neg hcol] at h
    unfold alterAddColumn at h
    unfold columnExists at hcol
    rw [if_neg hcol] at h
    dsimp only at h
    cases h
    constructor
    · unfold indexSingle
      rw [if_pos (by unfold columnExists
                     rw [createIndexIfNotExists_columns]
                     dsimp only
                     rw [List.elem_iff]
                     simp)]
      rw [createIndexIfNotExists_of_contains _ _ (createIndexIfNotExists_contains _ (idxName table col))]
    · exact createIndexIfNotExists_count _ (idxName table col) hcnt

/-- Witness for C7 from the empty schema. -/
theorem index_single_idempotent_witness :
    indexSingle ⟨["c"], ["Idx_t_c"]⟩ "t" "c" false =
      Except.ok ⟨["c"], ["Idx_t_c"]⟩ ∧
    (⟨["c"], ["Idx_t_c"]⟩ : Schema).indexes.count (idxName "t" "c") = 1 :=
  index_single_idempotent ⟨[], []⟩ ⟨["c"], ["Idx_t_c"]⟩ "t" "c" false
    rfl (by decide)

/-- C6: the multi-column index operation is all-or-nothing — whenever any
of its ALTER TABLE or CREATE INDEX steps (or the commit) fails, the raised
error leaves the schema exactly as before the call; on success every
requested projected column and the named index are visible together.  The
empty column list is excluded: the source folds over columns[0] and has no
meaning for it. -/
theorem multi_index_all_or_nothing (s : Schema) (name : String)
    (cols : List (String × String)) (alterFails : String → Bool)
    (createFails commitFails : Bool) (hne : cols ≠ []) :
    (∀ e, (indexMulti s name cols alterFails createFails commitFails).1 = some e →
      (indexMulti s name cols alterFails createFails commitFails).2 = s) ∧
    ((indexMulti s name cols alterFails createFails commitFails).1 = none →
      (∀ p ∈ cols,
        ((indexMulti s name cols alterFails createFails commitFails).2).columns.contains p.1 = true) ∧
      ((indexMulti s name cols alterFails createFails commitFails).2).indexes.contains name = true) := by
  unfold indexMulti
  cases hadd : addColumnsTx s cols alterFails with
  | error e =>
    exact ⟨fun _ _ => rfl, fun hnone => Option.noConfusion hnone⟩
  | ok s₁ =>
    dsimp only
    by_cases hcf : createFails = true
    · rw [if_pos hcf]
      exact ⟨fun _ _ => rfl, fun hnone => Option.noConfusion hnone⟩
    · rw [if_neg hcf]
      by_cases hcm : commitFails = true
      · rw [if_pos hcm]
        exact ⟨fun _ _ => rfl, fun hnone => Option.noConfusion hnone⟩
      · rw [if_neg hcm]
        refine ⟨fun e he => Option.noConfusion he, fun _ => ⟨?_, ?_⟩⟩
        · intro p hp
          rw [createIndexIfNotExists_columns]
          exact addColumnsTx_all cols s s₁ alterFails hadd p hp
        · exact createIndexIfNotExists_contains s₁ name

/-- Witness for C6: a two-column index over a fresh table, with no engine
failures, yields both columns and the index together. -/
theorem multi_index_all_or_nothing_witness :
    ((indexMulti ⟨[], []⟩ "nameidx" [("a", "$.a"), ("b", "$.b")]
        (fun _ => false) false false).2).columns.contains "a" = true ∧
    ((indexMulti ⟨[], []⟩ "nameidx" [("a", "$.a"), ("b", "$.b")]
        (fun _ => false) false false).2).columns.contains "b" = true ∧
    ((indexMulti ⟨[], []⟩ "nameidx" [("a", "$.a"), ("b", "$.b")]
        (fun _ => false) false false).2).indexes.contains "nameidx" = true := by
  have h := (multi_index_all_or_nothing ⟨[], []⟩ "nameidx"
    [("a", "$.a"), ("b", "$.b")] (fun _ => false) false false
    (by decide)).2 rfl
  exact ⟨h.1 ("a", "$.a") (by simp), h.1 ("b", "$.b") (by simp), h.2⟩


/-- query::order_by: a field and a direction flag whose constructor
default is ascending. -/
structure OrderBy where
  field : String
  ascending : Bool

/-- order_by built without an explicit direction: ascending by default. -/
def mkOrderBy (f : String) : OrderBy := ⟨f, true⟩

/-- order_by with an explicit direction. -/
def mkOrderByDir (f : String) (asc : Bool) : OrderBy := ⟨f, asc⟩

/-- order_by::direction. -/
def orderByDirection (o : OrderBy) : String :=
  if o.ascending then "ASC" else "DESC"

/-- std::accumulate joining of the select-field list with commas,
starting from its first element. -/
def joinComma : List String → String
  | [] => ""
  | x :: xs => xs.foldl (fun a b => a ++ "," ++ b) x

/-- Select-field list of db_collection::find: always docid, plus the
order field aliased AS __order_by — json-extracted when the field starts
with the root sigil, the literal column otherwise. -/
def findSelectFields (ob : Option OrderBy) : List String :=
  match ob with
  | some o =>
    ["docid",
      if startsDollar o.field then
        "json_extract(body, '" ++ o.field ++ "') AS __order_by"
      else
        o.field ++ " AS __order_by"]
  | none => ["docid"]

/-- Statement text built by db_collection::find. -/
def findQueryString (table qtext : String) (ob : Option OrderBy)
    (limit : Option Int) : String :=
  let base := "SELECT " ++ joinComma (findSelectFields ob) ++ " FROM [" ++
    table ++ "] WHERE " ++ qtext
  let base₂ :=
    match ob with
    | some o => base ++ " ORDER BY __order_by " ++ orderByDirection o
    | none => base
  match limit with
  | some n => base₂ ++ " LIMIT " ++ toString n
  | none => base₂

/-- Ordered insertion of a (docid, sort-key) row, keeping larger keys
first when descending and smaller keys first when ascending. -/
def insertRow (desc : Bool) (x : String × Int) :
    List (String × Int) → List (String × Int)
  | [] => [x]
  | y :: ys =>
    if (if desc then y.2 ≤ x.2 else x.2 ≤ y.2) then x :: y :: ys
    else y :: insertRow desc x ys

/-- ORDER BY __order_by over the filtered rows. -/
def orderRows (desc : Bool) (rows : List (String × Int)) :
    List (String × Int) :=
  rows.foldr (insertRow desc) []

/-- Engine-side execution of the generated statement over rows carrying an
integer sort key, followed by the find loop that appends one DocumentRef
per result row in result order: WHERE filter, ORDER BY, LIMIT, stream. -/
def findEval (rows : List (String × Int)) (pred : String × Int → Bool)
    (desc : Bool) (limit : Option Nat) : List String :=
  let matched := rows.filter pred
  let ordered := orderRows desc matched
  let limited :=
    match limit with
    | some n => ordered.take n
    | none => ordered
  limited.map Prod.fst

/-- C8: find builds exactly one statement of the claimed shape — the id
column, optionally the order field aliased AS __order_by (json-extracted
exactly when the field starts with the root sigil), the WHERE text, the
optional ORDER BY with ASC as the constructor default, and the optional
LIMIT — and the returned references preserve the statement's row order:
over rows with values 10, 30 and 20, descending order with limit 2 yields
the documents with values 30 then 20. -/
theorem find_statement_shape_and_order :
    (∀ (t q f : String) (asc : Bool) (n : Int),
      findQueryString t q (some (mkOrderByDir f asc)) (some n) =
        "SELECT docid," ++
          (if startsDollar f then
            "json_extract(body, '" ++ f ++ "') AS __order_by"
          else
            f ++ " AS __order_by") ++
          " FROM [" ++ t ++ "] WHERE " ++ q ++
          " ORDER BY __order_by " ++ (if asc then "ASC" else "DESC") ++
          " LIMIT " ++ toString n) ∧
    (∀ (t q : String), findQueryString t q none none =
      "SELECT docid FROM [" ++ t ++ "] WHERE " ++ q) ∧
    (∀ f, mkOrderBy f = mkOrderByDir f true ∧
      orderByDirection (mkOrderBy f) = "ASC") ∧
    findEval [("d10", 10), ("d30", 30), ("d20", 20)] (fun _ => true) true
      (some 2) = ["d30", "d20"] := by
  refine ⟨?_, ?_, ?_, ?_⟩
  · intro t q f asc n
    cases hs : startsDollar f <;> cases asc <;>
      simp [findQueryString, findSelectFields, joinComma, mkOrderByDir,
        orderByDirection, hs, strAppendAssoc] <;>
      (apply String.ext; simp [String.data_append])
  · intro t q
    simp [findQueryString, findSelectFields, joinComma, strAppendAssoc]
  · intro f
    exact ⟨rfl, rfl⟩
  · decide

end Docudb
